import Mathlib

/-
Shallow embedding of the `starkmint` ABCI application
(`src/starkmint/src/app.rs` and the lane setup in
`src/starkmint/src/bin/starkmint.rs`).

Modelling conventions:
- The filesystem state relevant to the app is the working directory
  `/tmp/starkmint` (present or not) and the height file
  `/tmp/starkmint/abci.height` (absent, or holding bytes that either
  bincode-decode to a `Height` or do not).
- A Rust `panic!` / `.unwrap()` / `.expect(...)` is modelled by an
  operation returning `none`.
- SHA-256 is modelled as an ideal digest: the hasher state is the ordered
  list of byte strings absorbed by `update` calls, and `finalize` is the
  free constructor `HashBytes.sha256` applied to that list.  The empty
  byte string (`AppHash::default()` / `vec![]`) is a distinct value
  `HashBytes.emptyBytes`, since a real SHA-256 digest is never empty.
- The `sha2` hasher lives behind `Arc<Mutex<_>>`; `lock()` failure (lock
  poisoning) is modelled by a boolean `poisoned` flag on the hasher state.
- The external transaction validator (`TransactionType::compute_and_hash`,
  whose implementation lives outside the dispatched handlers) is a
  parameter of type `Validator`; theorems quantify over it.
-/

namespace Starkmint

/-- Canonical transaction hash, the string stored in
`Transaction::transaction_hash` and fed to the SHA-256 hasher. -/
abbrev TxHash := String

/-- `TransactionType` from the repository: a tagged variant with a single
case `FunctionExecution { program, function, program_name, enable_trace }`. -/
inductive TransactionType where
  | functionExecution (program : String) (function : String)
      (program_name : String) (enable_trace : Bool)
deriving DecidableEq, Repr

/-- `Transaction { id, transaction_type, transaction_hash }`. -/
structure Transaction where
  id : Nat
  transaction_type : TransactionType
  transaction_hash : TxHash
deriving DecidableEq, Repr

/-- Wire bytes of a transaction as seen by `bincode::deserialize`:
either they decode to a `Transaction` or they do not. -/
inductive TxBytes where
  | wellFormed (tx : Transaction)
  | malformed
deriving DecidableEq, Repr

/-- Contents of the height file: either bytes that bincode-decode to a
`Height` value, or bytes that do not. -/
inductive FileBytes where
  | encodedHeight (h : Nat)
  | garbage
deriving DecidableEq, Repr

/-- Filesystem state visible to the app: whether `/tmp/starkmint` exists
and the contents of `/tmp/starkmint/abci.height` (`none` = file absent). -/
structure Fs where
  dirExists : Bool
  heightFile : Option FileBytes
deriving DecidableEq, Repr

/-- Idealized digest values: `emptyBytes` is the empty byte string
(`AppHash::default()` and `vec![]`), and `sha256 l` the SHA-256 digest of
the update sequence `l` (never empty, hence a distinct constructor). -/
inductive HashBytes where
  | emptyBytes
  | sha256 (absorbed : List TxHash)
deriving DecidableEq, Repr

/-- State of the `Arc<Mutex<Sha256>>` field: the ordered list of absorbed
update calls, plus whether the mutex is poisoned (`lock()` fails). -/
structure Hasher where
  poisoned : Bool
  absorbed : List TxHash
deriving DecidableEq, Repr

/-- Whole mutable state touched by the app: the filesystem, the hasher
behind its mutex, and the `TRANSACTIONS` global counter.  (The `TIMER`
global is used only to format log lines and is not modelled.) -/
structure AppState where
  fs : Fs
  hasher : Hasher
  transactions : Nat
deriving DecidableEq, Repr

/-- The external validator capability
`compute_and_hash : TransactionType -> Result<Hash, Error>`. -/
abbrev Validator := TransactionType → Except String TxHash

/-- `response::Info`. -/
structure InfoResponse where
  data : String
  version : String
  app_version : Nat
  last_block_height : Nat
  last_block_app_hash : HashBytes
deriving DecidableEq, Repr

/-- `response::Query` (only the fields the code sets). -/
structure QueryResponse where
  code : Nat
  log : String
  info : String
deriving DecidableEq, Repr

/-- `response::CheckTx` (only the `code` field is ever non-default). -/
structure CheckTxResponse where
  code : Nat
deriving DecidableEq, Repr

/-- `abci::EventAttribute`. -/
structure EventAttribute where
  key : String
  value : String
  index : Bool
deriving DecidableEq, Repr

/-- `abci::Event`. -/
structure Event where
  kind : String
  attributes : List EventAttribute
deriving DecidableEq, Repr

/-- `response::DeliverTx` (fields the code sets; absent fields keep their
Rust `Default` values: `code = 0`, empty strings, empty lists). -/
structure DeliverTxResponse where
  code : Nat
  data : String
  log : String
  info : String
  events : List Event
deriving DecidableEq, Repr

/-- `response::Commit`. -/
structure CommitResponse where
  data : HashBytes
  retain_height : Nat
deriving DecidableEq, Repr

/-- `response::SetOption`. -/
structure SetOptionResponse where
  code : Nat
  log : String
  info : String
deriving DecidableEq, Repr

/-- The ABCI `Request` variants matched by `Service<Request>::call`.
Request payloads that the code only logs (Info/Query/BeginBlock/EndBlock
fields, Echo message) are omitted. -/
inductive Request where
  | commit
  | info
  | query
  | checkTx (tx : TxBytes)
  | endBlock
  | deliverTx (tx : TxBytes)
  | beginBlock
  | flush
  | echo
  | initChain
  | listSnapshots
  | offerSnapshot
  | loadSnapshotChunk
  | applySnapshotChunk
  | setOption
deriving DecidableEq, Repr

/-- The ABCI `Response` variants.  `exception` is the error variant of the
protocol's response enum; the dispatcher never produces it. -/
inductive Response where
  | commit (r : CommitResponse)
  | info (r : InfoResponse)
  | query (r : QueryResponse)
  | checkTx (r : CheckTxResponse)
  | endBlock
  | deliverTx (r : DeliverTxResponse)
  | beginBlock
  | flush
  | echo (message : String)
  | initChain
  | listSnapshots
  | offerSnapshot
  | loadSnapshotChunk
  | applySnapshotChunk
  | setOption (r : SetOptionResponse)
  | exception (error : String)
deriving DecidableEq, Repr

namespace HeightFile

/-- `HeightFile::read_or_create`: read the height file if present
(crashing if its contents do not decode), otherwise write and return the
zero height. -/
def read_or_create (fs : Fs) : Option (Nat × Fs) :=
  match fs.heightFile with
  | some (.encodedHeight h) => some (h, fs)
  | some .garbage => none
  | none => some (0, { fs with heightFile := some (.encodedHeight 0) })

/-- `HeightFile::increment`: read the height file (crashing if absent or
undecodable), add one, persist and return the new value. -/
def increment (fs : Fs) : Option (Nat × Fs) :=
  match fs.heightFile with
  | some (.encodedHeight h) =>
      some (h + 1, { fs with heightFile := some (.encodedHeight (h + 1)) })
  | some .garbage => none
  | none => none

end HeightFile

namespace StarknetApp

/-- `StarknetApp::new`: create `/tmp/starkmint` (crashing if that fails,
in particular when the directory already exists), then write the zero
height to the height file. -/
def new (fs : Fs) : Option Fs :=
  if fs.dirExists then none
  else some { dirExists := true, heightFile := some (.encodedHeight 0) }

/-- Construction of a full app instance: `new` plus the freshly
initialized hasher and the zeroed `TRANSACTIONS` counter. -/
def newState (fs : Fs) : Option AppState :=
  (new fs).map fun fs' =>
    { fs := fs', hasher := { poisoned := false, absorbed := [] }, transactions := 0 }

/-- `StarknetApp::info`: fixed name/version/app_version, height from
`HeightFile::read_or_create`, and a fixed default app hash. -/
def info (s : AppState) : Option (InfoResponse × AppState) :=
  (HeightFile.read_or_create s.fs).map fun p =>
    ({ data := "cairo-app", version := "0.1.0", app_version := 1,
       last_block_height := p.1, last_block_app_hash := .emptyBytes },
     { s with fs := p.2 })

/-- `StarknetApp::query`: the query hook is unimplemented and always
returns the code-1 error response. -/
def query : QueryResponse :=
  { code := 1,
    log := "Error running query: Query hook needs implementation",
    info := "Error running query: Query hook needs implementation" }

/-- `StarknetApp::check_tx`: deserialize (crashing on malformed bytes),
log, and return the default (code 0) response.  No state is touched. -/
def check_tx (txBytes : TxBytes) : Option CheckTxResponse :=
  match txBytes with
  | .wellFormed _ => some { code := 0 }
  | .malformed => none

/-- `StarknetApp::begin_block`: reset the `TRANSACTIONS` counter (and the
log timer, which is not modelled). -/
def begin_block (s : AppState) : AppState :=
  { s with transactions := 0 }

/-- `StarknetApp::deliver_tx`: deserialize (crashing on malformed bytes),
recompute the hash via the validator and compare with the embedded hash;
the `TRANSACTIONS` counter is incremented before the comparison.  On a
match, fold the hash into the hasher (silently skipped if the lock is
poisoned) and answer with events and the hash as data; otherwise answer
with code 1 and an error message, leaving hasher and filesystem alone. -/
def deliver_tx (validator : Validator) (s : AppState) (txBytes : TxBytes) :
    Option (DeliverTxResponse × AppState) :=
  match txBytes with
  | .malformed => none
  | .wellFormed tx =>
    let tx_hash : Except String Bool :=
      (validator tx.transaction_type).map fun x => decide (x = tx.transaction_hash)
    let s1 : AppState := { s with transactions := s.transactions + 1 }
    match tx_hash with
    | .ok true =>
        let hasher :=
          if s1.hasher.poisoned then s1.hasher
          else { s1.hasher with absorbed := s1.hasher.absorbed ++ [tx.transaction_hash] }
        let index_event : Event :=
          { kind := "app",
            attributes := [{ index := true, key := "tx_id", value := tx.transaction_hash }] }
        let events : List Event :=
          match tx.transaction_type with
          | .functionExecution _ function _ _ =>
              [index_event,
               { kind := "function",
                 attributes := [{ key := "function", value := function, index := true }] }]
        some ({ code := 0, data := tx.transaction_hash, log := "", info := "",
                events := events },
              { s1 with hasher := hasher })
    | .ok false =>
        some ({ code := 1, data := "",
                log := "Error delivering transaction. Integrity check failed.",
                info := "Error delivering transaction. Integrity check failed.",
                events := [] }, s1)
    | .error e =>
        some ({ code := 1, data := "",
                log := "Error delivering transaction: " ++ e,
                info := "Error delivering transaction: " ++ e,
                events := [] }, s1)

/-- `StarknetApp::end_block`: only logs metrics; no state change. -/
def end_block (s : AppState) : AppState := s

/-- `StarknetApp::commit`: snapshot the digest (clone + finalize, which
does not reset the accumulator; an `Err` from `lock()` is remembered),
then increment the persisted height (crashing if the height file is
absent or undecodable), and answer with the digest — or with empty data
when the lock failed. -/
def commit (s : AppState) : Option (CommitResponse × AppState) :=
  let app_hash : Except Unit HashBytes :=
    if s.hasher.poisoned then .error () else .ok (.sha256 s.hasher.absorbed)
  match HeightFile.increment s.fs with
  | none => none
  | some (_, fs') =>
    match app_hash with
    | .ok hash =>
        some ({ data := hash, retain_height := 0 }, { s with fs := fs' })
    | .error _ =>
        some ({ data := .emptyBytes, retain_height := 0 }, { s with fs := fs' })

/-- `Service<Request>::call`: total dispatch from request variant to
response variant; the eight unhandled kinds answer with default
acknowledgements and touch no state. -/
def call (validator : Validator) (s : AppState) (req : Request) :
    Option (Response × AppState) :=
  match req with
  | .commit => (commit s).map fun p => (.commit p.1, p.2)
  | .info => (info s).map fun p => (.info p.1, p.2)
  | .query => some (.query query, s)
  | .checkTx tx => (check_tx tx).map fun r => (.checkTx r, s)
  | .endBlock => some (.endBlock, end_block s)
  | .deliverTx tx => (deliver_tx validator s tx).map fun p => (.deliverTx p.1, p.2)
  | .beginBlock => some (.beginBlock, begin_block s)
  | .flush => some (.flush, s)
  | .echo => some (.echo "", s)
  | .initChain => some (.initChain, s)
  | .listSnapshots => some (.listSnapshots, s)
  | .offerSnapshot => some (.offerSnapshot, s)
  | .loadSnapshotChunk => some (.loadSnapshotChunk, s)
  | .applySnapshotChunk => some (.applySnapshotChunk, s)
  | .setOption => some (.setOption { code := 0, log := "N/A", info := "N/A" }, s)

/-- Deliver a list of well-formed transactions in order (one block's
`deliver_tx` sequence), propagating a crash. -/
def deliverAll (validator : Validator) (s : AppState) :
    List Transaction → Option AppState
  | [] => some s
  | t :: ts =>
    match deliver_tx validator s (.wellFormed t) with
    | some (_, s') => deliverAll validator s' ts
    | none => none

/-- Iterate `commit` `k` times, propagating a crash. -/
def commitN : Nat → AppState → Option AppState
  | 0, s => some s
  | k + 1, s =>
    match commit s with
    | some (_, s') => commitN k s'
    | none => none

end StarknetApp

/-! ### Concrete fixtures used by witnesses and counterexamples -/

/-- A validator that accepts every payload with canonical hash `"H1"`. -/
def exValidator : Validator := fun _ => .ok "H1"

/-- A transaction whose embedded hash matches what `exValidator` computes. -/
def exTx : Transaction :=
  { id := 1,
    transaction_type := .functionExecution "P" "f" "p.cairo" true,
    transaction_hash := "H1" }

/-- A transaction whose embedded hash does not match what `exValidator`
computes. -/
def exBadTx : Transaction :=
  { id := 2,
    transaction_type := .functionExecution "P" "f" "p.cairo" true,
    transaction_hash := "H2" }

/-- The app state right after `StarknetApp.newState` on a fresh machine. -/
def genesisState : AppState :=
  { fs := { dirExists := true, heightFile := some (.encodedHeight 0) },
    hasher := { poisoned := false, absorbed := [] },
    transactions := 0 }

/-- The app state after delivering `exTx` at genesis and committing once. -/
def exCommitted : AppState :=
  { fs := { dirExists := true, heightFile := some (.encodedHeight 1) },
    hasher := { poisoned := false, absorbed := ["H1"] },
    transactions := 1 }

/-! ### Claim theorems -/

/-- Claim C10: constructing the application panics whenever creating the
working directory fails — in the model, exactly when `/tmp/starkmint`
already exists, so a second construction without external cleanup aborts —
and on every successful construction the persisted height record is
unconditionally overwritten with the zero height, whatever it held. -/
theorem new_panics_on_existing_dir_and_resets_height (fs : Fs) :
    (fs.dirExists = true → StarknetApp.new fs = none) ∧
    (fs.dirExists = false →
      StarknetApp.new fs =
        some { dirExists := true, heightFile := some (.encodedHeight 0) }) := by
  constructor <;> intro h <;> simp [StarknetApp.new, h]

/-- Witness for C10 at concrete inputs: the directory-present case panics
and the directory-absent case overwrites a persisted height of 5 with 0. -/
theorem new_panics_on_existing_dir_and_resets_height_witness :
    StarknetApp.new { dirExists := true, heightFile := some (.encodedHeight 5) } = none ∧
    StarknetApp.new { dirExists := false, heightFile := some (.encodedHeight 5) } =
      some { dirExists := true, heightFile := some (.encodedHeight 0) } :=
  ⟨(new_panics_on_existing_dir_and_resets_height _).1 rfl,
   (new_panics_on_existing_dir_and_resets_height _).2 rfl⟩

/-- Claim C6: whenever a persisted height record exists but does not
decode as a height, both read paths are fatal (`none`, i.e. the process
stops); and whenever a record exists, `read_or_create` never silently
substitutes a default — any value it returns is exactly the decoded
record, with the filesystem untouched. -/
theorem heightFile_fatal_on_malformed (fs : Fs) (b : FileBytes)
    (hb : fs.heightFile = some b) :
    (b = .garbage →
      HeightFile.read_or_create fs = none ∧ HeightFile.increment fs = none) ∧
    (∀ h fs', HeightFile.read_or_create fs = some (h, fs') →
      b = .encodedHeight h ∧ fs' = fs) := by
  cases b with
  | encodedHeight h =>
      refine ⟨?_, ?_⟩
      · intro hcontra
        exact absurd hcontra (by simp)
      intro h' fs' hread
      simp [HeightFile.read_or_create, hb] at hread
      exact ⟨by rw [hread.1], hread.2.symm⟩
  | garbage =>
      refine ⟨fun _ => ⟨?_, ?_⟩, ?_⟩
      · simp [HeightFile.read_or_create, hb]
      · simp [HeightFile.increment, hb]
      · intro h' fs' hread
        simp [HeightFile.read_or_create, hb] at hread

/-- Witness for C6 at a concrete filesystem whose height file holds
undecodable bytes. -/
theorem heightFile_fatal_on_malformed_witness :
    (FileBytes.garbage = FileBytes.garbage →
      HeightFile.read_or_create { dirExists := true, heightFile := some .garbage } = none ∧
      HeightFile.increment { dirExists := true, heightFile := some .garbage } = none) ∧
    (∀ h fs',
      HeightFile.read_or_create { dirExists := true, heightFile := some .garbage } =
        some (h, fs') →
      FileBytes.garbage = FileBytes.encodedHeight h ∧
        fs' = { dirExists := true, heightFile := some .garbage }) :=
  heightFile_fatal_on_malformed { dirExists := true, heightFile := some .garbage } .garbage rfl

/-- Claim C5: when finalizing the hash fails at commit time (poisoned
accumulator lock) but the height record is readable, `commit` still
returns a fully populated response — empty commitment data and the
default retain height — instead of crashing, and the hasher state is
left as it was. -/
theorem commit_empty_on_lock_failure (s : AppState) (h : Nat)
    (hp : s.hasher.poisoned = true)
    (hf : s.fs.heightFile = some (.encodedHeight h)) :
    ∃ s', StarknetApp.commit s =
        some ({ data := .emptyBytes, retain_height := 0 }, s') ∧
      s'.hasher = s.hasher ∧
      s'.fs.heightFile = some (.encodedHeight (h + 1)) := by
  refine ⟨{ s with fs := { s.fs with heightFile := some (.encodedHeight (h + 1)) } }, ?_, rfl, rfl⟩
  simp [StarknetApp.commit, HeightFile.increment, hp, hf]

/-- Witness for C5: a poisoned-lock state commits to an empty commitment. -/
theorem commit_empty_on_lock_failure_witness :
    ∃ s', StarknetApp.commit
        { fs := { dirExists := true, heightFile := some (.encodedHeight 3) },
          hasher := { poisoned := true, absorbed := ["H1"] },
          transactions := 0 } =
        some ({ data := .emptyBytes, retain_height := 0 }, s') ∧
      s'.hasher = { poisoned := true, absorbed := ["H1"] } ∧
      s'.fs.heightFile = some (.encodedHeight 4) :=
  commit_empty_on_lock_failure
    { fs := { dirExists := true, heightFile := some (.encodedHeight 3) },
      hasher := { poisoned := true, absorbed := ["H1"] },
      transactions := 0 } 3 rfl rfl

/-- Claim C8: the dispatcher is total on request variants, and every
request kind not mapped to a block-lifecycle or height-store operation is
accepted and answered with the default acknowledgement of the matching
response variant, with the state untouched — never with an error
(`exception` is never produced, and the `SetOption` acknowledgement
carries code 0). -/
theorem call_default_acks (v : Validator) (s : AppState) :
    StarknetApp.call v s .flush = some (.flush, s) ∧
    StarknetApp.call v s .echo = some (.echo "", s) ∧
    StarknetApp.call v s .initChain = some (.initChain, s) ∧
    StarknetApp.call v s .listSnapshots = some (.listSnapshots, s) ∧
    StarknetApp.call v s .offerSnapshot = some (.offerSnapshot, s) ∧
    StarknetApp.call v s .loadSnapshotChunk = some (.loadSnapshotChunk, s) ∧
    StarknetApp.call v s .applySnapshotChunk = some (.applySnapshotChunk, s) ∧
    StarknetApp.call v s .setOption =
      some (.setOption { code := 0, log := "N/A", info := "N/A" }, s) ∧
    (∀ req p e, StarknetApp.call v s req = some p → p.1 ≠ .exception e) := by
  refine ⟨rfl, rfl, rfl, rfl, rfl, rfl, rfl, rfl, ?_⟩
  intro req p e hcall
  cases req <;> simp [StarknetApp.call] at hcall
  case commit =>
      obtain ⟨q, hq, h2, h3⟩ := hcall
      rw [← h3]
      simp
  case info =>
      obtain ⟨q, hq, h2, h3⟩ := hcall
      rw [← h3]
      simp
  case query => rw [← hcall]; simp
  case checkTx tx =>
      obtain ⟨q, h2, h3⟩ := hcall
      rw [← h3]
      simp
  case endBlock => rw [← hcall]; simp
  case deliverTx tx =>
      obtain ⟨q, hq, h2, h3⟩ := hcall
      rw [← h3]
      simp
  case beginBlock => rw [← hcall]; simp
  case flush => rw [← hcall]; simp
  case echo => rw [← hcall]; simp
  case initChain => rw [← hcall]; simp
  case listSnapshots => rw [← hcall]; simp
  case offerSnapshot => rw [← hcall]; simp
  case loadSnapshotChunk => rw [← hcall]; simp
  case applySnapshotChunk => rw [← hcall]; simp
  case setOption => rw [← hcall]; simp

/-- Witness for C8, discharging its inner hypothesis at a concrete call:
the `Flush` acknowledgement is not an exception. -/
theorem call_default_acks_witness :
    Prod.fst ((Response.flush, genesisState) : Response × AppState) ≠
      Response.exception "boom" :=
  (call_default_acks exValidator genesisState).2.2.2.2.2.2.2.2
    .flush (Response.flush, genesisState) "boom" rfl

/-- Claim C4: for every payload, a `CheckTx` call either crashes on
deserialization (mutating nothing) or answers the default code-0
response with the state — filesystem height record and hash accumulator
included — exactly as it was, so it never alters what a subsequent
`commit` would produce. -/
theorem check_tx_frame (v : Validator) (s : AppState) (tx : TxBytes) :
    (StarknetApp.call v s (.checkTx tx) = none ∨
     StarknetApp.call v s (.checkTx tx) = some (.checkTx { code := 0 }, s)) ∧
    (∀ p, StarknetApp.call v s (.checkTx tx) = some p →
      p.2 = s ∧ StarknetApp.commit p.2 = StarknetApp.commit s) := by
  cases tx with
  | wellFormed t =>
      refine ⟨Or.inr rfl, ?_⟩
      intro p hp
      simp [StarknetApp.call, StarknetApp.check_tx] at hp
      rw [← hp]
      exact ⟨rfl, rfl⟩
  | malformed =>
      refine ⟨Or.inl rfl, ?_⟩
      intro p hp
      simp [StarknetApp.call, StarknetApp.check_tx] at hp

/-- Witness for C4 at a concrete call: `CheckTx` on a well-formed payload
leaves the genesis state (and hence its commit result) unchanged. -/
theorem check_tx_frame_witness :
    Prod.snd ((Response.checkTx { code := 0 }, genesisState) : Response × AppState) =
        genesisState ∧
      StarknetApp.commit
          (Prod.snd ((Response.checkTx { code := 0 }, genesisState) : Response × AppState)) =
        StarknetApp.commit genesisState :=
  (check_tx_frame exValidator genesisState (.wellFormed exTx)).2
    (Response.checkTx { code := 0 }, genesisState) rfl

/-- Counterexample to C2 as stated: delivering a transaction whose
embedded hash (`"H2"`) differs from the validator-recomputed hash
(`"H1"`) does return code 1, but the per-block applied-transaction
counter moves from 0 to 1 instead of staying as it was. -/
theorem deliver_reject_bumps_counter_counterexample :
    (StarknetApp.deliver_tx exValidator genesisState (.wellFormed exBadTx)).map
        (fun p => (p.1.code, p.2.transactions)) = some (1, 1) ∧
    genesisState.transactions = 0 := by
  exact ⟨by decide, rfl⟩

/-- Claim C2, amended: when the validator-recomputed hash differs from
the embedded hash (or the validator itself fails), `deliver_tx` answers
code 1 with one of the two integrity-failure messages, and leaves the
hash accumulator and the filesystem untouched — but the per-block
`TRANSACTIONS` counter is incremented by one, as it is on every
delivery. -/
theorem deliver_reject_frame (v : Validator) (s : AppState) (tx : Transaction)
    (hbad : ∀ x, v tx.transaction_type = .ok x → x ≠ tx.transaction_hash) :
    ∃ r s', StarknetApp.deliver_tx v s (.wellFormed tx) = some (r, s') ∧
      r.code = 1 ∧
      (r.log = "Error delivering transaction. Integrity check failed." ∨
        ∃ msg, r.log = "Error delivering transaction: " ++ msg) ∧
      r.info = r.log ∧
      s'.hasher = s.hasher ∧ s'.fs = s.fs ∧
      s'.transactions = s.transactions + 1 := by
  cases hv : v tx.transaction_type with
  | ok x =>
      have hne := hbad x hv
      refine ⟨{ code := 1, data := "",
                log := "Error delivering transaction. Integrity check failed.",
                info := "Error delivering transaction. Integrity check failed.",
                events := [] },
              { s with transactions := s.transactions + 1 },
              ?_, rfl, Or.inl rfl, rfl, rfl, rfl, rfl⟩
      simp [StarknetApp.deliver_tx, hv, Except.map, hne]
  | error e =>
      refine ⟨{ code := 1, data := "",
                log := "Error delivering transaction: " ++ e,
                info := "Error delivering transaction: " ++ e,
                events := [] },
              { s with transactions := s.transactions + 1 },
              ?_, rfl, Or.inr ⟨e, rfl⟩, rfl, rfl, rfl, rfl⟩
      simp [StarknetApp.deliver_tx, hv, Except.map]

/-- Witness for C2's amended theorem at the concrete mismatching
transaction `exBadTx` under `exValidator`. -/
theorem deliver_reject_frame_witness :
    ∃ r s', StarknetApp.deliver_tx exValidator genesisState (.wellFormed exBadTx) =
        some (r, s') ∧
      r.code = 1 ∧
      (r.log = "Error delivering transaction. Integrity check failed." ∨
        ∃ msg, r.log = "Error delivering transaction: " ++ msg) ∧
      r.info = r.log ∧
      s'.hasher = genesisState.hasher ∧ s'.fs = genesisState.fs ∧
      s'.transactions = genesisState.transactions + 1 :=
  deliver_reject_frame exValidator genesisState exBadTx
    (by intro x hx; simp [exValidator] at hx; rw [← hx]; decide)

/-- Counterexample to C7 as stated: after one committed valid
transaction the last state commitment is `sha256 ["H1"]`, yet `info`
reports the fixed default (empty) hash, not that last commitment. -/
theorem info_fixed_hash_counterexample :
    (StarknetApp.deliver_tx exValidator genesisState (.wellFormed exTx)).bind
        (fun p => StarknetApp.commit p.2) =
      some ({ data := .sha256 ["H1"], retain_height := 0 }, exCommitted) ∧
    (StarknetApp.info exCommitted).map (fun p => p.1.last_block_app_hash) =
      some HashBytes.emptyBytes ∧
    HashBytes.emptyBytes ≠ HashBytes.sha256 ["H1"] := by
  refine ⟨by decide, rfl, by simp⟩

/-- Claim C7, amended: an `Info` request answers the app name
`"cairo-app"`, version `"0.1.0"`, app version 1, and the last height as
read from the height store — but its state-commitment field is the fixed
default (empty) hash, not the last known commitment. -/
theorem info_reports_fixed_hash (s : AppState) (h : Nat)
    (hf : s.fs.heightFile = some (.encodedHeight h)) :
    StarknetApp.info s =
      some ({ data := "cairo-app", version := "0.1.0", app_version := 1,
              last_block_height := h, last_block_app_hash := .emptyBytes }, s) := by
  simp [StarknetApp.info, HeightFile.read_or_create, hf]

/-- Witness for C7's amended theorem at the concrete post-commit state. -/
theorem info_reports_fixed_hash_witness :
    StarknetApp.info exCommitted =
      some ({ data := "cairo-app", version := "0.1.0", app_version := 1,
              last_block_height := 1, last_block_app_hash := .emptyBytes },
            exCommitted) :=
  info_reports_fixed_hash exCommitted 1 rfl

/-- Helper: one `commit` on a readable height record always succeeds and
advances the persisted height by exactly one, leaving the hasher, the
counter and the directory flag alone. -/
theorem commit_step (s : AppState) (h : Nat)
    (hf : s.fs.heightFile = some (.encodedHeight h)) :
    ∃ r s1, StarknetApp.commit s = some (r, s1) ∧
      s1.fs = { dirExists := s.fs.dirExists, heightFile := some (.encodedHeight (h + 1)) } ∧
      s1.hasher = s.hasher ∧ s1.transactions = s.transactions := by
  by_cases hp : s.hasher.poisoned
  · refine ⟨{ data := .emptyBytes, retain_height := 0 },
            { s with fs := { s.fs with heightFile := some (.encodedHeight (h + 1)) } },
            ?_, rfl, rfl, rfl⟩
    simp [StarknetApp.commit, HeightFile.increment, hf, hp]
  · refine ⟨{ data := .sha256 s.hasher.absorbed, retain_height := 0 },
            { s with fs := { s.fs with heightFile := some (.encodedHeight (h + 1)) } },
            ?_, rfl, rfl, rfl⟩
    simp [StarknetApp.commit, HeightFile.increment, hf, hp]

/-- Helper: `k` commits from a readable height record `h` reach exactly
`h + k`, preserving the directory flag. -/
theorem commitN_adds (k : Nat) :
    ∀ (s : AppState) (h : Nat), s.fs.heightFile = some (.encodedHeight h) →
      ∃ s', StarknetApp.commitN k s = some s' ∧
        s'.fs.heightFile = some (.encodedHeight (h + k)) ∧
        s'.fs.dirExists = s.fs.dirExists := by
  induction k with
  | zero => exact fun s h hf => ⟨s, rfl, by simpa using hf, rfl⟩
  | succ k ih =>
      intro s h hf
      obtain ⟨r, s1, hc, hfs, _, _⟩ := commit_step s h hf
      obtain ⟨s', h1, h2, h3⟩ := ih s1 (h + 1) (by rw [hfs])
      refine ⟨s', ?_, ?_, ?_⟩
      · simp [StarknetApp.commitN, hc, h1]
      · rw [h2]
        have harith : h + 1 + k = h + (k + 1) := by omega
        rw [harith]
      · rw [h3, hfs]

/-- Counterexample to C1 as stated, at the concrete filesystem left by a
first instance that committed up to height 1: constructing a fresh
instance panics because the working directory still exists; and even on a
filesystem where the directory is gone but the record survived,
construction rewrites the record to zero, so the height read back is 0,
not the persisted 1. -/
theorem restart_not_persistent_counterexample :
    StarknetApp.new { dirExists := true, heightFile := some (.encodedHeight 1) } = none ∧
    StarknetApp.new { dirExists := false, heightFile := some (.encodedHeight 1) } =
      some { dirExists := true, heightFile := some (.encodedHeight 0) } ∧
    (HeightFile.read_or_create
        { dirExists := true, heightFile := some (.encodedHeight 0) }).map Prod.fst =
      some 0 := by
  refine ⟨rfl, rfl, rfl⟩

/-- Claim C1, amended: within one instance the persisted height starts at
zero at genesis and every commit advances it by exactly one (so the k-th
commit reaches k); but across a process restart the height is not read
back: constructing a fresh instance panics while the working directory
still exists, and a construction that does succeed rewrites the persisted
record to zero. -/
theorem commit_height_succession_and_restart (fs0 : Fs) (s0 : AppState) (k : Nat)
    (hdir : fs0.dirExists = false)
    (hnew : StarknetApp.newState fs0 = some s0) :
    s0.fs.heightFile = some (.encodedHeight 0) ∧
    (∀ (s : AppState) (h : Nat), s.fs.heightFile = some (.encodedHeight h) →
      ∃ r s', StarknetApp.commit s = some (r, s') ∧
        s'.fs.heightFile = some (.encodedHeight (h + 1))) ∧
    (∃ sk, StarknetApp.commitN k s0 = some sk ∧
      sk.fs.heightFile = some (.encodedHeight k) ∧
      StarknetApp.new sk.fs = none) ∧
    (∀ fs1 : Fs, fs1.dirExists = false →
      (StarknetApp.new fs1).map Fs.heightFile = some (some (.encodedHeight 0))) := by
  have hs0 : s0.fs = { dirExists := true, heightFile := some (.encodedHeight 0) } := by
    simp [StarknetApp.newState, StarknetApp.new, hdir] at hnew
    rw [← hnew]
  refine ⟨by rw [hs0], ?_, ?_, ?_⟩
  · intro s h hf
    obtain ⟨r, s', hc, hfs, _, _⟩ := commit_step s h hf
    exact ⟨r, s', hc, by rw [hfs]⟩
  · obtain ⟨sk, h1, h2, h3⟩ := commitN_adds k s0 0 (by rw [hs0])
    refine ⟨sk, h1, by simpa using h2, ?_⟩
    have : sk.fs.dirExists = true := by rw [h3, hs0]
    simp [StarknetApp.new, this]
  · intro fs1 hfs1
    simp [StarknetApp.new, hfs1]

/-- Witness for C1's amended theorem: two commits from a genesis
construction on a fresh machine. -/
theorem commit_height_succession_and_restart_witness :
    genesisState.fs.heightFile = some (.encodedHeight 0) ∧
    (∀ (s : AppState) (h : Nat), s.fs.heightFile = some (.encodedHeight h) →
      ∃ r s', StarknetApp.commit s = some (r, s') ∧
        s'.fs.heightFile = some (.encodedHeight (h + 1))) ∧
    (∃ sk, StarknetApp.commitN 2 genesisState = some sk ∧
      sk.fs.heightFile = some (.encodedHeight 2) ∧
      StarknetApp.new sk.fs = none) ∧
    (∀ fs1 : Fs, fs1.dirExists = false →
      (StarknetApp.new fs1).map Fs.heightFile = some (some (.encodedHeight 0))) :=
  commit_height_succession_and_restart
    { dirExists := false, heightFile := none } genesisState 2 rfl rfl

/-- Helper: delivering a list of transactions that the validator accepts
(recomputed hash equal to the embedded one) through an unpoisoned hasher
succeeds and appends exactly their hashes, in delivery order, to the
accumulator, leaving the filesystem alone. -/
theorem deliverAll_valid (v : Validator) (txs : List Transaction) :
    ∀ s : AppState, s.hasher.poisoned = false →
      (∀ t ∈ txs, v t.transaction_type = .ok t.transaction_hash) →
      ∃ s', StarknetApp.deliverAll v s txs = some s' ∧
        s'.hasher.poisoned = false ∧
        s'.hasher.absorbed = s.hasher.absorbed ++ txs.map (fun t => t.transaction_hash) ∧
        s'.fs = s.fs := by
  induction txs with
  | nil => exact fun s hp _ => ⟨s, rfl, hp, by simp, rfl⟩
  | cons t ts ih =>
      rintro ⟨fs, ⟨pois, abs⟩, n⟩ hp hv
      simp only at hp
      subst hp
      have hvt := hv t (by simp)
      obtain ⟨s', h1, h2, h3, h4⟩ :=
        ih { fs := fs, hasher := { poisoned := false, absorbed := abs ++ [t.transaction_hash] },
             transactions := n + 1 }
          rfl (fun u hu => hv u (by simp [hu]))
      refine ⟨s', ?_, h2, ?_, h4⟩
      · rw [← h1]
        simp [StarknetApp.deliverAll, StarknetApp.deliver_tx, hvt, Except.map]
      · rw [h3]
        simp

/-- Claim C3: delivering any sequence of valid transactions and then
committing yields a commitment that is the digest of the accumulator
contents extended by exactly those transactions' canonical hashes in
delivery order; the prior accumulator contents are an arbitrary prefix
(so the fold is cumulative across blocks), and commit does not reset the
accumulator. -/
theorem commit_is_fold_of_delivered_hashes (v : Validator) (s : AppState)
    (txs : List Transaction) (h : Nat)
    (hp : s.hasher.poisoned = false)
    (hv : ∀ t ∈ txs, v t.transaction_type = .ok t.transaction_hash)
    (hf : s.fs.heightFile = some (.encodedHeight h)) :
    ∃ s', StarknetApp.deliverAll v s txs = some s' ∧
      s'.hasher.absorbed = s.hasher.absorbed ++ txs.map (fun t => t.transaction_hash) ∧
      ∃ r s'', StarknetApp.commit s' = some (r, s'') ∧
        r.data = .sha256 (s.hasher.absorbed ++ txs.map (fun t => t.transaction_hash)) ∧
        s''.hasher = s'.hasher := by
  obtain ⟨s', h1, h2, h3, h4⟩ := deliverAll_valid v txs s hp hv
  refine ⟨s', h1, h3, ?_⟩
  have hf' : s'.fs.heightFile = some (.encodedHeight h) := by rw [h4]; exact hf
  refine ⟨{ data := .sha256 s'.hasher.absorbed, retain_height := 0 },
          { s' with fs := { s'.fs with heightFile := some (.encodedHeight (h + 1)) } },
          ?_, by rw [h3], rfl⟩
  simp [StarknetApp.commit, HeightFile.increment, h2, hf']

/-- Witness for C3: two valid transactions delivered at genesis commit to
the digest of their two hashes in order. -/
theorem commit_is_fold_of_delivered_hashes_witness :
    ∃ s', StarknetApp.deliverAll exValidator genesisState [exTx, exTx] = some s' ∧
      s'.hasher.absorbed =
        genesisState.hasher.absorbed ++
          ([exTx, exTx].map fun t => t.transaction_hash) ∧
      ∃ r s'', StarknetApp.commit s' = some (r, s'') ∧
        r.data = .sha256 (genesisState.hasher.absorbed ++
          ([exTx, exTx].map fun t => t.transaction_hash)) ∧
        s''.hasher = s'.hasher :=
  commit_is_fold_of_delivered_hashes exValidator genesisState [exTx, exTx] 0
    rfl (by intro t ht; simp at ht; subst ht; rfl) rfl

end Starkmint
